import Mathlib

/-!
# trace-pending: the `eth` package

A shallow embedding of `src/eth/eth.go`: the argument-set builder `toCallArg`,
the composite operation `Client.TraceCall`, the worker body and the dispatcher
loop of `Client.NewTxTraceHandler`, and the decode of a generic response into
the `TraceResult` tree.

Conventions.
* A Go `error` is an `Option Err`, `none` being `nil`; a Go pointer that may be
  `nil` is an `Option`.
* What the package reaches through its imports is a field of `Env` (the point
  lookup, the sender recovery, the remote call); the decode of the imported
  `mapstructure` package is modelled, see the section on decoding.
* Effects (log records, remote calls, decode steps) are returned as an explicit
  list next to the Go results.
-/

namespace Eth

/-! ## Data model -/

/-- A `common.Hash`, as the number its 32 bytes denote. -/
abbrev Hash := Nat

/-- A `common.Address`, as the number its 20 bytes denote. -/
abbrev Address := Nat

/-- Non-nil values of Go's `error`. `NotFound` is the sentinel `ethereum.NotFound`,
which the source compares by identity. -/
inductive Err where
  | NotFound
  | other (msg : String)
  deriving DecidableEq, Repr

/-- What `eth.go` reads of a `*types.Transaction`: the results of the accessors
`To()`, `Data()`, `Value()`, `Gas()`, `GasPrice()`. `Value()` and `GasPrice()`
return a `*big.Int`, which the source tests against `nil`. `Sig` stands for the
signature values, which only the sender recovery looks at. -/
structure Transaction where
  To : Option Address
  Data : List Nat
  Value : Option Nat
  Gas : Nat
  GasPrice : Option Nat
  Sig : Nat
  deriving DecidableEq, Repr

/-- Values stored in the argument map of `toCallArg`. -/
inductive ArgVal where
  | address (a : Address)
  | addressPtr (a : Option Address)
  | bytes (b : List Nat)
  | big (n : Nat)
  | uint64 (n : Nat)
  deriving DecidableEq, Repr

/-- A Go `map[string]interface{}` as an association list with distinct keys. -/
abbrev ArgMap := List (String × ArgVal)

/-- The assignment `m[k] = v`. -/
def mapSet (m : ArgMap) (k : String) (v : ArgVal) : ArgMap :=
  m.filter (fun kv => kv.1 != k) ++ [(k, v)]

/-- The keys of a map. -/
def mapKeys (m : ArgMap) : List String := m.map Prod.fst

/-- The fields of `vm.LogConfig` that the source sets; all others keep their zero value. -/
structure LogConfig where
  DisableStack : Bool
  DisableStorage : Bool
  Debug : Bool
  deriving DecidableEq, Repr

/-- The fields of `tracers.TraceConfig` that the source sets (both are pointers). -/
structure TraceConfig where
  LogConfig : Option LogConfig
  Tracer : Option String
  deriving DecidableEq, Repr

/-- A variadic argument of `RpcClient.CallContext`. -/
inductive Param where
  | argSet (m : ArgMap)
  | str (s : String)
  | traceConfig (c : TraceConfig)
  deriving DecidableEq, Repr

/-- A generic response: what `CallContext` stores into an `interface{}` from JSON. -/
inductive Resp where
  | null
  | bool (b : Bool)
  | num (n : Int)
  | str (s : String)
  | arr (xs : List Resp)
  | obj (kvs : List (String × Resp))

/-- The struct `TraceResult` (eth.go:26-37); `Type_` is the Go field `Type`. -/
inductive TraceResult where
  | mk (Calls : List TraceResult)
      (From Gas GasUsed Input Output Time To Type_ Value : String)

namespace TraceResult

def Calls : TraceResult → List TraceResult
  | mk c _ _ _ _ _ _ _ _ _ => c

def From : TraceResult → String
  | mk _ s _ _ _ _ _ _ _ _ => s

def Gas : TraceResult → String
  | mk _ _ s _ _ _ _ _ _ _ => s

def GasUsed : TraceResult → String
  | mk _ _ _ s _ _ _ _ _ _ => s

def Input : TraceResult → String
  | mk _ _ _ _ s _ _ _ _ _ => s

def Output : TraceResult → String
  | mk _ _ _ _ _ s _ _ _ _ => s

def Time : TraceResult → String
  | mk _ _ _ _ _ _ s _ _ _ => s

def To : TraceResult → String
  | mk _ _ _ _ _ _ _ s _ _ => s

def Type_ : TraceResult → String
  | mk _ _ _ _ _ _ _ _ s _ => s

def Value : TraceResult → String
  | mk _ _ _ _ _ _ _ _ _ s => s

/-- The value of `new(TraceResult)`: every field at its zero value. -/
def zero : TraceResult := mk [] "" "" "" "" "" "" "" "" ""

end TraceResult

/-! ## Logging and effects -/

inductive Level where
  | error
  | info
  deriving DecidableEq, Repr

/-- One argument of a `logrus` call. -/
inductive LogArg where
  | str (s : String)
  | hash (h : Hash)
  | err (e : Option Err)
  deriving DecidableEq, Repr

/-- One log record: `logrus.Error` writes at level `error`, `logrus.Println` at `info`. -/
structure LogRecord where
  level : Level
  args : List LogArg
  deriving DecidableEq, Repr

/-- What `TraceCall` does to the outside, in program order. -/
inductive Effect where
  | lookup (h : Hash)
  | log (r : LogRecord)
  | call (method : String) (params : List Param)
  | decode (r : Resp)

/-- The log records among a list of effects. -/
def logsOf : List Effect → List LogRecord
  | [] => []
  | .log r :: es => r :: logsOf es
  | _ :: es => logsOf es

/-- The remote calls among a list of effects. -/
def callsOf : List Effect → List (String × List Param)
  | [] => []
  | .call m ps :: es => (m, ps) :: callsOf es
  | _ :: es => callsOf es

/-- The decode steps among a list of effects. -/
def decodesOf : List Effect → List Resp
  | [] => []
  | .decode r :: es => r :: decodesOf es
  | _ :: es => decodesOf es

/-! ## The environment -/

/-- The imported operations the package calls.
* `TransactionByHash h` is `EthClient.TransactionByHash(ctx, h)`: the transaction and the error.
* `Sender chainID tx` is `types.Sender(types.LatestSignerForChainID(chainID), tx)`.
* `CallContext method params` is `RpcClient.CallContext(ctx, &result, method, params...)` under
  the five-second context: the error (a timeout included) or the stored result. -/
structure Env where
  TransactionByHash : Hash → Option Transaction × Option Err
  Sender : Nat → Transaction → Except Err Address
  CallContext : String → List Param → Except Err Resp

/-- The struct `Client`: the two handles live in `Env`, the cached id is kept. -/
structure Client where
  NetworkId : Nat
  deriving DecidableEq, Repr

/-! ## `toCallArg` (eth.go:118-140) -/

def toCallArg (Sender : Nat → Transaction → Except Err Address)
    (tx : Transaction) (chainID : Nat) : Option ArgMap × Option Err :=
  match Sender chainID tx with
  | .error err => (none, some err)
  | .ok sender =>
    let arg : ArgMap := [("from", .address sender), ("to", .addressPtr tx.To)]
    let arg := if tx.Data.length > 0 then mapSet arg "data" (.bytes tx.Data) else arg
    let arg := match tx.Value with
      | some v => mapSet arg "value" (.big v)
      | none => arg
    let arg := if tx.Gas ≠ 0 then mapSet arg "gas" (.uint64 tx.Gas) else arg
    let arg := match tx.GasPrice with
      | some p => mapSet arg "gasPrice" (.big p)
      | none => arg
    (some arg, none)

/-! ## Decoding a response into a `TraceResult` (eth.go:111-112)

The decode step is the call `mapstructure.Decode(result, traceResult)` of an imported library,
whose code is not among the sources. It is modelled here at the target type `TraceResult`
(eth.go:26-37) as the recursive decode the specification describes, with a failure when the
shape of the response is unexpected, and with the rules of the library's default configuration:
the library reads no `json` tag, so a field is looked up under its Go name, first exactly and
then ignoring case; a key that matches no field is ignored and a field that matches no key keeps
its value; a `nil` input sets nothing; a string field takes only a string, a slice field only an
array, a struct only a map. Errors are collected field by field while decoding goes on, so the
target is filled as far as possible. The texts of the messages are abridged. -/

/-- Modelled from the spec: the key comparison of the imported `mapstructure` package, which is
not among the sources; case-insensitive (`strings.EqualFold`, on ASCII letters). -/
def EqualFold (a b : String) : Bool :=
  a.data.map Char.toLower == b.data.map Char.toLower

/-- Modelled from the spec: the field lookup of the imported `mapstructure` package, which is
not among the sources. The map entry a struct field is decoded from is the one whose key equals
the field name, else the first whose key equals it up to case. -/
def lookupField {β : Type} (fieldName : String) (m : List (String × β)) : Option β :=
  match m.find? (fun kv => kv.1 == fieldName) with
  | some kv => some kv.2
  | none => (m.find? (fun kv => EqualFold kv.1 fieldName)).map Prod.snd

/-- Modelled from the spec: the string case of the imported `mapstructure.Decode`, which is not
among the sources. Decoding into a field of kind string, whose value so far is `cur`. -/
def decodeString (cur : String) : Option Resp → String × List String
  | none => (cur, [])
  | some .null => (cur, [])
  | some (.str s) => (s, [])
  | some _ => (cur, ["expected type 'string', got unconvertible type"])

mutual

/-- Modelled from the spec: the struct case of the imported `mapstructure.Decode`, which is not
among the sources. Decoding into a zero `TraceResult` struct. -/
def decodeStruct : Resp → TraceResult × List String
  | .null => (TraceResult.zero, [])
  | .obj kvs =>
    let calls := (lookupField "Calls" (decodeEntries kvs)).getD ([], [])
    let from_ := decodeString "" (lookupField "From" kvs)
    let gas := decodeString "" (lookupField "Gas" kvs)
    let gasUsed := decodeString "" (lookupField "GasUsed" kvs)
    let input := decodeString "" (lookupField "Input" kvs)
    let output := decodeString "" (lookupField "Output" kvs)
    let time := decodeString "" (lookupField "Time" kvs)
    let to_ := decodeString "" (lookupField "To" kvs)
    let type_ := decodeString "" (lookupField "Type" kvs)
    let value := decodeString "" (lookupField "Value" kvs)
    (TraceResult.mk calls.1 from_.1 gas.1 gasUsed.1 input.1 output.1 time.1 to_.1 type_.1 value.1,
      calls.2 ++ from_.2 ++ gas.2 ++ gasUsed.2 ++ input.2 ++ output.2 ++ time.2 ++ to_.2
        ++ type_.2 ++ value.2)
  | _ => (TraceResult.zero, ["expected a map"])

/-- Modelled from the spec: the slice case of the imported `mapstructure.Decode`, which is not
among the sources. Decoding into a nil `[]TraceResult`. -/
def decodeSlice : Resp → List TraceResult × List String
  | .null => ([], [])
  | .arr xs => decodeElems xs
  | _ => ([], ["source data must be an array or slice"])

/-- Modelled from the spec: the element loop of the slice case of the imported
`mapstructure.Decode`. The elements of an array, each decoded into a zero struct, in order. -/
def decodeElems : List Resp → List TraceResult × List String
  | [] => ([], [])
  | x :: xs =>
    ((decodeStruct x).1 :: (decodeElems xs).1, (decodeStruct x).2 ++ (decodeElems xs).2)

/-- Modelled from the spec: part of the struct case of the imported `mapstructure.Decode`. Every
entry of a map with its value decoded as a `[]TraceResult`; `decodeStruct` looks the field
`Calls` up in it, which is decoding the entry found in the map (`decodeStruct_obj_calls`). -/
def decodeEntries : List (String × Resp) → List (String × (List TraceResult × List String))
  | [] => []
  | (k, v) :: rest => (k, decodeSlice v) :: decodeEntries rest

end

/-- Modelled from the spec: the imported `mapstructure.Decode`, which is not among the sources.
The call `mapstructure.Decode(result, traceResult)` on a fresh `traceResult`: the struct
afterwards and the returned error. -/
def Decode (result : Resp) : TraceResult × Option Err :=
  let r := decodeStruct result
  (r.1, if r.2.isEmpty then none else some (Err.other (String.intercalate "; " r.2)))

/-- The response that JSON-encodes a `TraceResult` under the struct's `json` tags. -/
def encode : TraceResult → Resp
  | .mk calls from_ gas gasUsed input output time to_ type_ value =>
    .obj [("calls", .arr (encodeList calls)), ("from", .str from_), ("gas", .str gas),
      ("gasUsed", .str gasUsed), ("input", .str input), ("output", .str output),
      ("time", .str time), ("to", .str to_), ("type", .str type_), ("value", .str value)]
where
  encodeList : List TraceResult → List Resp
    | [] => []
    | t :: ts => encode t :: encodeList ts

/-! ## Well-formed responses -/

/-- The keys of a call-tracer response node: the `json` names of the fields of `TraceResult`. -/
def traceKeys : List String :=
  ["calls", "from", "gas", "gasUsed", "input", "output", "time", "to", "type", "value"]

/-- The string a map holds under a key, if it holds a string there. -/
def strAt (kvs : List (String × Resp)) (k : String) : Option String :=
  match kvs.lookup k with
  | some (.str s) => some s
  | _ => none

/-- The array a map holds under a key, if it holds an array there. -/
def arrAt (kvs : List (String × Resp)) (k : String) : Option (List Resp) :=
  match kvs.lookup k with
  | some (.arr xs) => some xs
  | _ => none

mutual

/-- A well-formed response tree for a `TraceResult` tree: a map whose keys are among
`traceKeys`, which holds under `calls` an array of well-formed responses for the children, in
order, and under each other key the string of the corresponding field. -/
def carries : Resp → TraceResult → Bool
  | .obj kvs, .mk calls from_ gas gasUsed input output time to_ type_ value =>
    kvs.all (fun kv => traceKeys.contains kv.1) &&
    (match arrAt kvs "calls" with
      | some cs => carriesList cs calls
      | none => false) &&
    strAt kvs "from" == some from_ && strAt kvs "gas" == some gas &&
    strAt kvs "gasUsed" == some gasUsed && strAt kvs "input" == some input &&
    strAt kvs "output" == some output && strAt kvs "time" == some time &&
    strAt kvs "to" == some to_ && strAt kvs "type" == some type_ &&
    strAt kvs "value" == some value
  | _, _ => false

/-- Element by element, in order and with equal lengths. -/
def carriesList : List Resp → List TraceResult → Bool
  | [], [] => true
  | r :: rs, t :: ts => carries r t && carriesList rs ts
  | _, _ => false

end

/-! ## Values of the wrong kind -/

/-- Whether the entry selected for a string field has the wrong kind: it is present and neither
null nor a string. -/
def notString : Option Resp → Bool
  | none => false
  | some .null => false
  | some (.str _) => false
  | some _ => true

mutual

/-- Whether the decode of a response into a `TraceResult` meets a value of the wrong kind: the
response is neither null nor a map, or it is a map in which the entry selected for a string
field is neither null nor a string, or the entry selected for `Calls` is of the wrong kind for a
slice. -/
def wrongKind : Resp → Bool
  | .null => false
  | .obj kvs =>
    (lookupField "Calls" (wrongEntries kvs)).getD false ||
    notString (lookupField "From" kvs) || notString (lookupField "Gas" kvs) ||
    notString (lookupField "GasUsed" kvs) || notString (lookupField "Input" kvs) ||
    notString (lookupField "Output" kvs) || notString (lookupField "Time" kvs) ||
    notString (lookupField "To" kvs) || notString (lookupField "Type" kvs) ||
    notString (lookupField "Value" kvs)
  | _ => true

/-- Whether the entry selected for `Calls` is of the wrong kind: it is neither null nor an array,
or it is an array with an element of the wrong kind. -/
def wrongSlice : Resp → Bool
  | .null => false
  | .arr xs => wrongElems xs
  | _ => true

/-- Whether some element of an array is of the wrong kind. -/
def wrongElems : List Resp → Bool
  | [] => false
  | x :: xs => wrongKind x || wrongElems xs

/-- Every entry of a map with `wrongSlice` of its value; `wrongKind` looks the field `Calls` up in
it (`wrongEntries_eq`). -/
def wrongEntries : List (String × Resp) → List (String × Bool)
  | [] => []
  | (k, v) :: rest => (k, wrongSlice v) :: wrongEntries rest

end

/-! ## `Client.TraceCall` (eth.go:86-116) -/

/-- The three results of `TraceCall`. -/
structure Ret where
  tx : Option Transaction
  traceResult : Option TraceResult
  err : Option Err

/-- The variadic arguments of the `debug_traceCall` request (eth.go:96, 106-107). -/
def traceParams (arg : ArgMap) (opt : String) : List Param :=
  let tracerOpt := "callTracer"
  let logConfig : LogConfig := { DisableStack := true, DisableStorage := true, Debug := true }
  [.argSet arg, .str opt, .traceConfig { LogConfig := some logConfig, Tracer := some tracerOpt }]

def TraceCall (env : Env) (client : Client) (txHash : Hash) (opt : String) :
    Ret × List Effect :=
  let tx := (env.TransactionByHash txHash).1
  let err := (env.TransactionByHash txHash).2
  if err ≠ none ∧ err ≠ some Err.NotFound then
    (⟨tx, none, err⟩,
      [.lookup txHash, .log ⟨.error, [.str "TransactionByHash: ", .err err]⟩])
  else
    match tx with
    | none => (⟨none, none, err⟩, [.lookup txHash])
    | some t =>
      let arg := (toCallArg env.Sender t client.NetworkId).1
      let err := (toCallArg env.Sender t client.NetworkId).2
      if err ≠ none then (⟨tx, none, err⟩, [.lookup txHash])
      else
        match arg with
        | none => (⟨tx, none, err⟩, [.lookup txHash])
        | some a =>
          match env.CallContext "debug_traceCall" (traceParams a opt) with
          | .error e =>
            (⟨tx, none, some e⟩,
              [.lookup txHash, .call "debug_traceCall" (traceParams a opt)])
          | .ok result =>
            (⟨tx, some (Decode result).1, (Decode result).2⟩,
              [.lookup txHash, .call "debug_traceCall" (traceParams a opt), .decode result])

/-! ## `Client.NewTxTraceHandler` (eth.go:60-84) -/

/-- The body of the goroutine started for one identifier (eth.go:69-77): the log records it
produces, those written inside `TraceCall` included. -/
def worker (env : Env) (client : Client) (txHash : Hash) (opt : String) : List LogRecord :=
  let r := TraceCall env client txHash opt
  let failure : List LogRecord :=
    if r.1.err ≠ none then [⟨.error, [.hash txHash, .err r.1.err]⟩] else []
  let success : List LogRecord :=
    match r.1.tx, r.1.traceResult with
    | some _, some traceResult =>
      [⟨.info, [.hash txHash, .str traceResult.From, .str traceResult.To]⟩]
    | _, _ => []
  logsOf r.2 ++ failure ++ success

/-- What the `select` of one iteration receives. -/
inductive Event where
  | txHash (h : Hash)
  | timeout
  | subscribeErr (err : Option Err)
  deriving DecidableEq, Repr

/-- The state of a call of `NewTxTraceHandler`: the goroutines started so far, each with the
identifier and the mode it captured, the records the loop itself has logged, and the returned
error once the call has returned (`none` while it is in the loop). -/
structure Dispatcher where
  spawned : List (Hash × String)
  logs : List LogRecord
  returned : Option Err
  deriving DecidableEq, Repr

/-- One iteration of the `for`/`select` loop. -/
def step (opt : String) (s : Dispatcher) : Event → Dispatcher
  | .txHash h => { s with spawned := s.spawned ++ [(h, opt)] }
  | .timeout => { s with logs := s.logs ++ [⟨.error, [.str "timeout"]⟩] }
  | .subscribeErr err => { s with logs := s.logs ++ [⟨.error, [.err err]⟩] }

/-- The loop over a finite sequence of events; an iteration runs only while the call has not
returned. -/
def loop (opt : String) (s : Dispatcher) : List Event → Dispatcher
  | [] => s
  | e :: es => if s.returned = none then loop opt (step opt s e) es else s

/-- The call `client.NewTxTraceHandler(opt)`: `subscribeErr` is the error of the initial
`EthSubscribe`, `events` what the loop then receives. -/
def NewTxTraceHandler (subscribeErr : Option Err) (opt : String) (events : List Event) :
    Dispatcher :=
  match subscribeErr with
  | some err => { spawned := [], logs := [], returned := some err }
  | none => loop opt { spawned := [], logs := [], returned := none } events

/-- Every record logged during a call of `NewTxTraceHandler`: the loop's own and those of the
workers it started. The goroutines run concurrently, so only the records and their number are
meaningful, not their order across workers. -/
def allLogs (env : Env) (client : Client) (d : Dispatcher) : List LogRecord :=
  d.logs ++ (d.spawned.map (fun w => worker env client w.1 w.2)).flatten


/-! ## Reading a sequence of events -/

/-- The identifiers among a sequence of events, in order of arrival. -/
def identifiers : List Event → List Hash
  | [] => []
  | .txHash h :: es => h :: identifiers es
  | _ :: es => identifiers es

/-- Whether an event is the arrival of an identifier. -/
def isTxHash : Event → Bool
  | .txHash _ => true
  | _ => false

/-- The records the loop itself logs over a sequence of events: one per idle timeout and one
per subscription error, none for an identifier. -/
def loopRecords : List Event → List LogRecord
  | [] => []
  | .txHash _ :: es => loopRecords es
  | .timeout :: es => ⟨.error, [.str "timeout"]⟩ :: loopRecords es
  | .subscribeErr err :: es => ⟨.error, [.err err]⟩ :: loopRecords es

/-- The failure records (level `error`) among log records. -/
def failures (logs : List LogRecord) : List LogRecord :=
  logs.filter (fun l => l.level = Level.error)

/-- The success records (level `info`) among log records. -/
def successes (logs : List LogRecord) : List LogRecord :=
  logs.filter (fun l => l.level = Level.info)


/-! ## Sample inputs -/

/-- A signed call transaction with payload, value, gas limit and gas price. -/
def sampleTx : Transaction :=
  { To := some 0xBEEF, Data := [0xa9, 0x05, 0x9c, 0xbb], Value := some 5, Gas := 21000,
    GasPrice := some 7, Sig := 1 }

/-- A signed contract creation: no recipient, value zero, gas limit zero, gas price zero. -/
def creationTx : Transaction :=
  { To := none, Data := [0x60, 0x80], Value := some 0, Gas := 0, GasPrice := some 0, Sig := 1 }

/-- A signed plain transfer: empty payload. -/
def transferTx : Transaction :=
  { To := some 0xCAFE, Data := [], Value := some 1000, Gas := 21000, GasPrice := some 7,
    Sig := 1 }

/-- A transaction whose signature does not yield a sender. -/
def unsignedTx : Transaction :=
  { To := some 0xBEEF, Data := [], Value := some 5, Gas := 21000, GasPrice := some 7, Sig := 0 }

/-- A sender recovery: fails on the signature `0`, else yields the address `0xF00`. -/
def sampleSender : Nat → Transaction → Except Err Address :=
  fun _ tx => if tx.Sig = 0 then .error (.other "invalid transaction v, r, s values") else .ok 0xF00

/-- A trace of one call with two sub-calls, the second with a sub-call of its own. -/
def sampleTrace : TraceResult :=
  .mk [.mk [] "0xbeef" "0x10" "0x8" "0x01" "0x" "1ms" "0xaaaa" "STATICCALL" "0x0",
       .mk [.mk [] "0xbbbb" "0x5" "0x2" "0x03" "0x" "1ms" "0xcccc" "CALL" "0x0"]
         "0xbeef" "0x20" "0x9" "0x02" "0x" "2ms" "0xbbbb" "DELEGATECALL" "0x0"]
    "0xf00" "0x5208" "0x5000" "0xa9059cbb" "0x01" "5ms" "0xbeef" "CALL" "0x5"

/-- A node whose lookup knows `0xB` (`sampleTx`) and `0xD` (`unsignedTx`), fails on `0xC` and
reports NotFound for every other hash, and whose remote call has the outcome `call`. -/
def sampleEnv (call : Except Err Resp) : Env :=
  { TransactionByHash := fun h =>
      if h = 0xB then (some sampleTx, none)
      else if h = 0xC then (none, some (.other "connection reset"))
      else if h = 0xD then (some unsignedTx, none)
      else (none, some .NotFound)
    Sender := sampleSender
    CallContext := fun _ _ => call }

/-- The remote call answers with the encoding of `sampleTrace`. -/
def envOk : Env := sampleEnv (.ok (encode sampleTrace))

/-- The remote call runs into its deadline. -/
def envTimeout : Env := sampleEnv (.error (.other "context deadline exceeded"))

/-- The remote call answers with a string where a map is expected. -/
def envBadShape : Env := sampleEnv (.ok (.str "0x"))

/-- The argument set of `sampleTx` with the sender `0xF00`. -/
def sampleArg : ArgMap :=
  [("from", .address 0xF00), ("to", .addressPtr (some 0xBEEF)),
    ("data", .bytes [0xa9, 0x05, 0x9c, 0xbb]), ("value", .big 5), ("gas", .uint64 21000),
    ("gasPrice", .big 7)]

/-- A response for a call with one sub-call, the keys of each node in an order of their own. -/
def shuffledResp : Resp :=
  .obj [("value", .str "0x5"), ("type", .str "CALL"), ("to", .str "0xbeef"),
    ("calls", .arr [.obj [("from", .str "0xbeef"), ("to", .str "0xaaaa"), ("calls", .arr []),
      ("gas", .str "0x10"), ("gasUsed", .str "0x8"), ("input", .str "0x01"),
      ("output", .str "0x"), ("time", .str "1ms"), ("type", .str "STATICCALL"),
      ("value", .str "0x0")]]),
    ("time", .str "5ms"), ("output", .str "0x01"), ("input", .str "0xa9059cbb"),
    ("gasUsed", .str "0x5000"), ("gas", .str "0x5208"), ("from", .str "0xf00")]

/-- The tree that `shuffledResp` describes. -/
def shuffledTrace : TraceResult :=
  .mk [.mk [] "0xbeef" "0x10" "0x8" "0x01" "0x" "1ms" "0xaaaa" "STATICCALL" "0x0"]
    "0xf00" "0x5208" "0x5000" "0xa9059cbb" "0x01" "5ms" "0xbeef" "CALL" "0x5"

/-- The remote call answers with JSON null. -/
def envNull : Env := sampleEnv (.ok .null)

/-- The remote call answers with a map that holds a number under `from` and a string among its
`calls`. -/
def envWrongField : Env :=
  sampleEnv (.ok (.obj [("from", .num 1), ("to", .str "0xbeef"), ("calls", .arr [.str "0x"])]))

/-- A client on network 56. -/
def sampleClient : Client := { NetworkId := 56 }


/-! ## Facts about the decode -/

theorem decodeEntries_eq (kvs : List (String × Resp)) :
    decodeEntries kvs = kvs.map (fun kv => (kv.1, decodeSlice kv.2)) := by
  induction kvs with
  | nil => simp [decodeEntries]
  | cons kv rest ih =>
    obtain ⟨k, v⟩ := kv
    simp [decodeEntries, ih]

theorem find?_map_snd {β γ : Type} (p : String → Bool) (g : β → γ) (m : List (String × β)) :
    (m.map (fun kv => (kv.1, g kv.2))).find? (fun kv => p kv.1)
      = (m.find? (fun kv => p kv.1)).map (fun kv => (kv.1, g kv.2)) := by
  induction m with
  | nil => rfl
  | cons kv rest ih =>
    by_cases h : p kv.1 = true
    · simp [List.find?, h]
    · simp [List.find?, h, ih]

theorem lookupField_map {β γ : Type} (fieldName : String) (g : β → γ) (m : List (String × β)) :
    lookupField fieldName (m.map (fun kv => (kv.1, g kv.2))) = (lookupField fieldName m).map g := by
  unfold lookupField
  rw [find?_map_snd (fun k => k == fieldName) g m, find?_map_snd (fun k => EqualFold k fieldName) g m]
  cases m.find? (fun kv => kv.1 == fieldName) <;>
    cases m.find? (fun kv => EqualFold kv.1 fieldName) <;> rfl

/-- The field `Calls` is decoded from the entry that `lookupField` selects in the map itself. -/
theorem decodeStruct_obj_calls (kvs : List (String × Resp)) :
    (decodeStruct (.obj kvs)).1.Calls
      = (((lookupField "Calls" kvs).map decodeSlice).getD ([], [])).1 := by
  simp [decodeStruct, TraceResult.Calls, decodeEntries_eq, lookupField_map]


theorem find?_key_eq_none {β : Type} (F : String) (kvs : List (String × β))
    (hkeys : ∀ kv ∈ kvs, traceKeys.contains kv.1 = true)
    (hF : ∀ k ∈ traceKeys, (k == F) = false) :
    kvs.find? (fun kv => kv.1 == F) = none := by
  rw [List.find?_eq_none]
  intro kv hkv
  have h1 := hkeys kv hkv
  have h2 := hF kv.1 (by simpa using h1)
  simp [h2]

theorem find?_fold_eq_lookup {β : Type} (F k : String) (kvs : List (String × β))
    (hkeys : ∀ kv ∈ kvs, traceKeys.contains kv.1 = true)
    (hfold : ∀ k' ∈ traceKeys, EqualFold k' F = (k' == k)) :
    (kvs.find? (fun kv => EqualFold kv.1 F)).map Prod.snd = kvs.lookup k := by
  induction kvs with
  | nil => rfl
  | cons kv rest ih =>
    obtain ⟨k', v⟩ := kv
    have hk : traceKeys.contains k' = true := hkeys (k', v) (List.mem_cons_self _ _)
    have hf := hfold k' (by simpa using hk)
    have ih' := ih (fun kv hkv => hkeys kv (List.mem_cons_of_mem _ hkv))
    by_cases hb : (k' == k) = true
    · have hkk : k = k' := by simpa using Eq.symm (beq_iff_eq.mp hb)
      subst hkk
      simp [List.find?, List.lookup, hf]
    · have hb' : (k' == k) = false := by simpa using hb
      have hb'' : (k == k') = false := by
        simp only [beq_eq_false_iff_ne, ne_eq] at hb' ⊢
        exact fun h => hb' h.symm
      simp [List.find?, List.lookup, hf, hb', hb'', ih']

/-- In a map whose keys are among `traceKeys`, the entry a field is decoded from is the one
under the field's `json` name. -/
theorem lookupField_traceKey {β : Type} (F k : String) (kvs : List (String × β))
    (hkeys : ∀ kv ∈ kvs, traceKeys.contains kv.1 = true)
    (hF : ∀ k' ∈ traceKeys, (k' == F) = false)
    (hfold : ∀ k' ∈ traceKeys, EqualFold k' F = (k' == k)) :
    lookupField F kvs = kvs.lookup k := by
  unfold lookupField
  rw [find?_key_eq_none F kvs hkeys hF]
  exact find?_fold_eq_lookup F k kvs hkeys hfold

theorem lookup_of_strAt (kvs : List (String × Resp)) (k s : String)
    (h : strAt kvs k = some s) : kvs.lookup k = some (.str s) := by
  unfold strAt at h
  split at h
  · rename_i s' heq
    simp only [Option.some.injEq] at h
    rw [heq, h]
  · simp at h

theorem lookup_of_arrAt (kvs : List (String × Resp)) (k : String) (xs : List Resp)
    (h : arrAt kvs k = some xs) : kvs.lookup k = some (.arr xs) := by
  unfold arrAt at h
  split at h
  · rename_i s' heq
    simp only [Option.some.injEq] at h
    rw [heq, h]
  · simp at h

mutual

theorem decodeStruct_of_carries :
    ∀ (t : TraceResult) (r : Resp), carries r t = true → decodeStruct r = (t, [])
  | .mk calls from_ gas gasUsed input output time to_ type_ value, r, h => by
    cases r with
    | obj kvs =>
      simp only [carries, Bool.and_eq_true, beq_iff_eq, List.all_eq_true] at h
      obtain ⟨⟨⟨⟨⟨⟨⟨⟨⟨⟨hkeys, hc⟩, h2⟩, h3⟩, h4⟩, h5⟩, h6⟩, h7⟩, h8⟩, h9⟩, h10⟩ := h
      cases hcs : arrAt kvs "calls" with
      | none => simp [hcs] at hc
      | some cs =>
        rw [hcs] at hc
        have ih := decodeElems_of_carriesList calls cs hc
        have e1 : lookupField "Calls" kvs = some (.arr cs) := by
          rw [lookupField_traceKey "Calls" "calls" kvs hkeys (by decide) (by decide)]
          exact lookup_of_arrAt kvs _ _ hcs
        have e2 : lookupField "From" kvs = some (.str from_) := by
          rw [lookupField_traceKey "From" "from" kvs hkeys (by decide) (by decide)]
          exact lookup_of_strAt kvs _ _ h2
        have e3 : lookupField "Gas" kvs = some (.str gas) := by
          rw [lookupField_traceKey "Gas" "gas" kvs hkeys (by decide) (by decide)]
          exact lookup_of_strAt kvs _ _ h3
        have e4 : lookupField "GasUsed" kvs = some (.str gasUsed) := by
          rw [lookupField_traceKey "GasUsed" "gasUsed" kvs hkeys (by decide) (by decide)]
          exact lookup_of_strAt kvs _ _ h4
        have e5 : lookupField "Input" kvs = some (.str input) := by
          rw [lookupField_traceKey "Input" "input" kvs hkeys (by decide) (by decide)]
          exact lookup_of_strAt kvs _ _ h5
        have e6 : lookupField "Output" kvs = some (.str output) := by
          rw [lookupField_traceKey "Output" "output" kvs hkeys (by decide) (by decide)]
          exact lookup_of_strAt kvs _ _ h6
        have e7 : lookupField "Time" kvs = some (.str time) := by
          rw [lookupField_traceKey "Time" "time" kvs hkeys (by decide) (by decide)]
          exact lookup_of_strAt kvs _ _ h7
        have e8 : lookupField "To" kvs = some (.str to_) := by
          rw [lookupField_traceKey "To" "to" kvs hkeys (by decide) (by decide)]
          exact lookup_of_strAt kvs _ _ h8
        have e9 : lookupField "Type" kvs = some (.str type_) := by
          rw [lookupField_traceKey "Type" "type" kvs hkeys (by decide) (by decide)]
          exact lookup_of_strAt kvs _ _ h9
        have e10 : lookupField "Value" kvs = some (.str value) := by
          rw [lookupField_traceKey "Value" "value" kvs hkeys (by decide) (by decide)]
          exact lookup_of_strAt kvs _ _ h10
        simp only [decodeStruct, decodeEntries_eq, lookupField_map, e1, e2, e3, e4, e5, e6, e7,
          e8, e9, e10, decodeString, decodeSlice, ih, Option.map_some', Option.getD_some,
          List.append_nil]
    | null => simp [carries] at h
    | bool b => simp [carries] at h
    | num n => simp [carries] at h
    | str s => simp [carries] at h
    | arr xs => simp [carries] at h

theorem decodeElems_of_carriesList :
    ∀ (ts : List TraceResult) (rs : List Resp),
      carriesList rs ts = true → decodeElems rs = (ts, [])
  | [], [], _ => by simp [decodeElems]
  | [], _ :: _, h => by simp [carriesList] at h
  | _ :: _, [], h => by simp [carriesList] at h
  | t :: ts, r :: rs, h => by
    simp only [carriesList, Bool.and_eq_true] at h
    simp [decodeElems, decodeStruct_of_carries t r h.1, decodeElems_of_carriesList ts rs h.2]

end

mutual

theorem carries_encode : ∀ t : TraceResult, carries (encode t) t = true
  | .mk calls from_ gas gasUsed input output time to_ type_ value => by
    have ih := carriesList_encodeList calls
    simp [encode, carries, traceKeys, arrAt, strAt, List.lookup, ih]

theorem carriesList_encodeList :
    ∀ ts : List TraceResult, carriesList (encode.encodeList ts) ts = true
  | [] => by simp [encode.encodeList, carriesList]
  | t :: ts => by
    simp [encode.encodeList, carriesList, carries_encode t, carriesList_encodeList ts]

end

theorem wrongEntries_eq (kvs : List (String × Resp)) :
    wrongEntries kvs = kvs.map (fun kv => (kv.1, wrongSlice kv.2)) := by
  induction kvs with
  | nil => simp [wrongEntries]
  | cons kv rest ih =>
    obtain ⟨k, v⟩ := kv
    simp [wrongEntries, ih]

theorem decodeString_nil_iff (cur : String) (o : Option Resp) :
    (decodeString cur o).2 = [] ↔ notString o = false := by
  cases o with
  | none => simp [decodeString, notString]
  | some r => cases r <;> simp [decodeString, notString]

theorem lookupField_mem {β : Type} (F : String) (m : List (String × β)) (v : β)
    (h : lookupField F m = some v) : ∃ kv ∈ m, kv.2 = v := by
  unfold lookupField at h
  split at h
  · rename_i kv hkv
    exact ⟨kv, List.mem_of_find?_eq_some hkv, by simpa using h⟩
  · cases hf : m.find? (fun kv => EqualFold kv.1 F) with
    | none => simp [hf] at h
    | some kv =>
      rw [hf] at h
      exact ⟨kv, List.mem_of_find?_eq_some hf, by simpa using h⟩

mutual

theorem decodeStruct_nil_iff : ∀ r : Resp, (decodeStruct r).2 = [] ↔ wrongKind r = false
  | .null => by simp [decodeStruct, wrongKind]
  | .bool _ => by simp [decodeStruct, wrongKind]
  | .num _ => by simp [decodeStruct, wrongKind]
  | .str _ => by simp [decodeStruct, wrongKind]
  | .arr _ => by simp [decodeStruct, wrongKind]
  | .obj kvs => by
    have ih := decodeEntries_nil_iff kvs
    have hc : (((lookupField "Calls" kvs).map decodeSlice).getD ([], [])).2 = [] ↔
        ((lookupField "Calls" kvs).map wrongSlice).getD false = false := by
      cases hlk : lookupField "Calls" kvs with
      | none => simp
      | some v =>
        obtain ⟨kv, hkv, rfl⟩ := lookupField_mem "Calls" kvs v hlk
        simpa using ih kv hkv
    simp only [decodeStruct, wrongKind, decodeEntries_eq, wrongEntries_eq, lookupField_map,
      List.append_eq_nil, decodeString_nil_iff, Bool.or_eq_false_iff, hc, and_assoc]

theorem decodeSlice_nil_iff : ∀ r : Resp, (decodeSlice r).2 = [] ↔ wrongSlice r = false
  | .null => by simp [decodeSlice, wrongSlice]
  | .bool _ => by simp [decodeSlice, wrongSlice]
  | .num _ => by simp [decodeSlice, wrongSlice]
  | .str _ => by simp [decodeSlice, wrongSlice]
  | .obj _ => by simp [decodeSlice, wrongSlice]
  | .arr xs => by
    simpa [decodeSlice, wrongSlice] using decodeElems_nil_iff xs

theorem decodeElems_nil_iff : ∀ xs : List Resp, (decodeElems xs).2 = [] ↔ wrongElems xs = false
  | [] => by simp [decodeElems, wrongElems]
  | x :: xs => by
    simp [decodeElems, wrongElems, decodeStruct_nil_iff x, decodeElems_nil_iff xs]

theorem decodeEntries_nil_iff : ∀ kvs : List (String × Resp),
    ∀ kv ∈ kvs, ((decodeSlice kv.2).2 = [] ↔ wrongSlice kv.2 = false)
  | [], _, h => by simp at h
  | (k, v) :: rest, kv, h => by
    rcases List.mem_cons.mp h with h1 | h1
    · subst h1
      exact decodeSlice_nil_iff v
    · exact decodeEntries_nil_iff rest kv h1

end

/-- The decode returns a nil error exactly when it meets no value of the wrong kind. -/
theorem Decode_err_none_iff (r : Resp) : (Decode r).2 = none ↔ wrongKind r = false := by
  rw [← decodeStruct_nil_iff r]
  simp [Decode, List.isEmpty_iff]

/-- The encoding of a tree decodes to that tree. -/
theorem Decode_encode (t : TraceResult) : Decode (encode t) = (t, none) := by
  simp [Decode, decodeStruct_of_carries t (encode t) (carries_encode t)]

/-- C9. Decoding is structure-preserving: a well-formed response tree, whose nodes carry the keys
calls, from, gas, gasUsed, input, output, time, to, type, value in any order, decodes without
error to the `TraceResult` tree of the same shape, with every node's children in the order of
the response and every string field equal to the value in the response; and the response that
encodes a tree is such a response for it, so that encoding and decoding yields the tree. -/
theorem Decode_carries (r : Resp) (t : TraceResult) (h : carries r t = true) :
    Decode r = (t, none) ∧ carries (encode t) t = true ∧ Decode (encode t) = (t, none) := by
  refine ⟨?_, carries_encode t, ?_⟩
  · simp [Decode, decodeStruct_of_carries t r h]
  · simp [Decode, decodeStruct_of_carries t (encode t) (carries_encode t)]

/-- Witness of C9 at a response whose nodes list their keys in another order than the struct. -/
theorem Decode_carries_witness :
    carries shuffledResp shuffledTrace = true ∧
    Decode shuffledResp = (shuffledTrace, none) ∧
    carries (encode shuffledTrace) shuffledTrace = true ∧
    Decode (encode shuffledTrace) = (shuffledTrace, none) :=
  ⟨by decide, Decode_carries shuffledResp shuffledTrace (by decide)⟩


/-! ## `toCallArg` -/

theorem toCallArg_ok (Sender : Nat → Transaction → Except Err Address) (tx : Transaction)
    (chainID : Nat) (sender : Address) (h : Sender chainID tx = .ok sender) :
    ∃ arg, toCallArg Sender tx chainID = (some arg, none) := by
  simp [toCallArg, h]

theorem toCallArg_error (Sender : Nat → Transaction → Except Err Address) (tx : Transaction)
    (chainID : Nat) (e : Err) (h : Sender chainID tx = .error e) :
    toCallArg Sender tx chainID = (none, some e) := by
  simp [toCallArg, h]

/-- C3. When the sender is recovered, `toCallArg` returns a nil error and a map in which `from`
is the recovered sender, `to` is the recipient pointer of the transaction (nil for a contract
creation), `data` is present exactly when the payload is non-empty and then holds the payload,
and every key is one of from, to, data, value, gas, gasPrice (each at most once). -/
theorem toCallArg_from_to_data (Sender : Nat → Transaction → Except Err Address)
    (tx : Transaction) (chainID : Nat) (sender : Address)
    (h : Sender chainID tx = .ok sender) :
    (toCallArg Sender tx chainID).2 = none ∧
    ∃ arg, (toCallArg Sender tx chainID).1 = some arg ∧
      arg.lookup "from" = some (.address sender) ∧
      arg.lookup "to" = some (.addressPtr tx.To) ∧
      arg.lookup "data" = (if tx.Data = [] then none else some (.bytes tx.Data)) ∧
      (∀ k ∈ mapKeys arg, k ∈ ["from", "to", "data", "value", "gas", "gasPrice"]) ∧
      (mapKeys arg).Nodup := by
  obtain ⟨to_, data, value, gas, gasPrice, sig⟩ := tx
  refine ⟨by simp [toCallArg, h], ?_⟩
  simp only [toCallArg, h, Option.some.injEq, exists_eq_left']
  cases data <;> cases value <;> cases gasPrice <;> by_cases hg : gas = 0 <;>
    simp [mapSet, mapKeys, List.lookup, hg]


/-- Witness of C3 at a contract creation on chain 56, where `to` is the nil recipient and `data`
the payload, and at a plain transfer, where `data` is absent. -/
theorem toCallArg_from_to_data_witness :
    (sampleSender 56 creationTx = .ok 0xF00 ∧
      (toCallArg sampleSender creationTx 56).2 = none ∧
      ∃ arg, (toCallArg sampleSender creationTx 56).1 = some arg ∧
        arg.lookup "from" = some (.address 0xF00) ∧
        arg.lookup "to" = some (.addressPtr none) ∧
        arg.lookup "data" = some (.bytes [0x60, 0x80]) ∧
        (∀ k ∈ mapKeys arg, k ∈ ["from", "to", "data", "value", "gas", "gasPrice"]) ∧
        (mapKeys arg).Nodup) ∧
    (sampleSender 56 transferTx = .ok 0xF00 ∧
      (toCallArg sampleSender transferTx 56).2 = none ∧
      ∃ arg, (toCallArg sampleSender transferTx 56).1 = some arg ∧
        arg.lookup "from" = some (.address 0xF00) ∧
        arg.lookup "to" = some (.addressPtr (some 0xCAFE)) ∧
        arg.lookup "data" = none ∧
        (∀ k ∈ mapKeys arg, k ∈ ["from", "to", "data", "value", "gas", "gasPrice"]) ∧
        (mapKeys arg).Nodup) :=
  ⟨⟨rfl, toCallArg_from_to_data sampleSender creationTx 56 0xF00 rfl⟩,
    ⟨rfl, toCallArg_from_to_data sampleSender transferTx 56 0xF00 rfl⟩⟩

/-- C4, counterexample. For the contract creation `creationTx`, whose value and gas price are
zero, the map returned by `toCallArg` contains the keys `value` and `gasPrice`, bound to 0. -/
theorem toCallArg_zero_value_present :
    creationTx.Value = some 0 ∧ creationTx.GasPrice = some 0 ∧
    (toCallArg sampleSender creationTx 56).1.bind (List.lookup "value") = some (.big 0) ∧
    (toCallArg sampleSender creationTx 56).1.bind (List.lookup "gasPrice") = some (.big 0) := by
  decide

/-- C4, amended. When the sender is recovered, the map returned by `toCallArg` has the key `gas`
exactly when the gas limit is non-zero, the key `value` exactly when `tx.Value()` is non-nil and
the key `gasPrice` exactly when `tx.GasPrice()` is non-nil, a zero amount included; a key that
is present holds the field's value. -/
theorem toCallArg_value_gas_gasPrice (Sender : Nat → Transaction → Except Err Address)
    (tx : Transaction) (chainID : Nat) (sender : Address)
    (h : Sender chainID tx = .ok sender) :
    ∃ arg, (toCallArg Sender tx chainID).1 = some arg ∧
      arg.lookup "value" = tx.Value.map ArgVal.big ∧
      arg.lookup "gas" = (if tx.Gas = 0 then none else some (.uint64 tx.Gas)) ∧
      arg.lookup "gasPrice" = tx.GasPrice.map ArgVal.big := by
  obtain ⟨to_, data, value, gas, gasPrice, sig⟩ := tx
  simp only [toCallArg, h, Option.some.injEq, exists_eq_left']
  cases data <;> cases value <;> cases gasPrice <;> by_cases hg : gas = 0 <;>
    simp [mapSet, List.lookup, hg]

/-- Witness of the amended C4 at `sampleTx`: value 5, gas limit 21000 and gas price 7 are all
in the map. -/
theorem toCallArg_value_gas_gasPrice_witness :
    sampleSender 56 sampleTx = .ok 0xF00 ∧
    ∃ arg, (toCallArg sampleSender sampleTx 56).1 = some arg ∧
      arg.lookup "value" = some (.big 5) ∧
      arg.lookup "gas" = some (.uint64 21000) ∧
      arg.lookup "gasPrice" = some (.big 7) :=
  ⟨rfl, toCallArg_value_gas_gasPrice sampleSender sampleTx 56 0xF00 rfl⟩

/-! ## `TraceCall` -/

/-- The lookup reports NotFound: `TraceCall` returns at eth.go:93 with the named result `err`
still holding `ethereum.NotFound`. -/
theorem TraceCall_of_notFound (env : Env) (client : Client) (txHash : Hash) (opt : String)
    (h : env.TransactionByHash txHash = (none, some Err.NotFound)) :
    TraceCall env client txHash opt = (⟨none, none, some Err.NotFound⟩, [.lookup txHash]) := by
  simp [TraceCall, h]

/-- The lookup fails with an error that is not NotFound: `TraceCall` logs it and returns it. -/
theorem TraceCall_of_lookupError (env : Env) (client : Client) (txHash : Hash) (opt : String)
    (tx : Option Transaction) (e : Err) (hne : e ≠ Err.NotFound)
    (h : env.TransactionByHash txHash = (tx, some e)) :
    TraceCall env client txHash opt =
      (⟨tx, none, some e⟩,
        [.lookup txHash, .log ⟨.error, [.str "TransactionByHash: ", .err (some e)]⟩]) := by
  simp [TraceCall, h, hne]

/-- The lookup yields a transaction for which `toCallArg` fails. -/
theorem TraceCall_of_senderError (env : Env) (client : Client) (txHash : Hash) (opt : String)
    (t : Transaction) (e : Err)
    (hl : env.TransactionByHash txHash = (some t, none))
    (hs : env.Sender client.NetworkId t = .error e) :
    TraceCall env client txHash opt = (⟨some t, none, some e⟩, [.lookup txHash]) := by
  simp [TraceCall, hl, toCallArg_error _ _ _ _ hs]

/-- The lookup and `toCallArg` succeed and the remote call fails. -/
theorem TraceCall_of_callError (env : Env) (client : Client) (txHash : Hash) (opt : String)
    (t : Transaction) (arg : ArgMap) (e : Err)
    (hl : env.TransactionByHash txHash = (some t, none))
    (ha : toCallArg env.Sender t client.NetworkId = (some arg, none))
    (hc : env.CallContext "debug_traceCall" (traceParams arg opt) = .error e) :
    TraceCall env client txHash opt =
      (⟨some t, none, some e⟩,
        [.lookup txHash, .call "debug_traceCall" (traceParams arg opt)]) := by
  simp [TraceCall, hl, ha, hc]

/-- The lookup, `toCallArg` and the remote call succeed. -/
theorem TraceCall_of_callOk (env : Env) (client : Client) (txHash : Hash) (opt : String)
    (t : Transaction) (arg : ArgMap) (result : Resp)
    (hl : env.TransactionByHash txHash = (some t, none))
    (ha : toCallArg env.Sender t client.NetworkId = (some arg, none))
    (hc : env.CallContext "debug_traceCall" (traceParams arg opt) = .ok result) :
    TraceCall env client txHash opt =
      (⟨some t, some (Decode result).1, (Decode result).2⟩,
        [.lookup txHash, .call "debug_traceCall" (traceParams arg opt), .decode result]) := by
  simp [TraceCall, hl, ha, hc]

/-- C1, the code at the failing input. The lookup of `0xA` reports NotFound (nil transaction,
error `ethereum.NotFound`); `TraceCall` returns a nil transaction and a nil trace result and
issues no request, but the error it returns is `ethereum.NotFound`, not nil. -/
theorem TraceCall_notFound_returns_NotFound :
    envOk.TransactionByHash 0xA = (none, some Err.NotFound) ∧
    (TraceCall envOk sampleClient 0xA "latest").1.tx = none ∧
    (TraceCall envOk sampleClient 0xA "latest").1.traceResult = none ∧
    (TraceCall envOk sampleClient 0xA "latest").1.err = some Err.NotFound ∧
    callsOf (TraceCall envOk sampleClient 0xA "latest").2 = [] := by
  have h := TraceCall_of_notFound envOk sampleClient 0xA "latest" rfl
  rw [h]
  exact ⟨rfl, rfl, rfl, rfl, rfl⟩

/-- C5, counterexample. The lookup of `0xD` yields `unsignedTx`, whose sender cannot be
recovered; `TraceCall` returns a non-nil error, the one of `toCallArg`. -/
theorem TraceCall_unusable_returns_error :
    envOk.TransactionByHash 0xD = (some unsignedTx, none) ∧
    (toCallArg envOk.Sender unsignedTx sampleClient.NetworkId).2
      = some (.other "invalid transaction v, r, s values") ∧
    (TraceCall envOk sampleClient 0xD "latest").1.err
      = some (.other "invalid transaction v, r, s values") ∧
    (TraceCall envOk sampleClient 0xD "latest").1.err ≠ none := by
  have h := TraceCall_of_senderError envOk sampleClient 0xD "latest" unsignedTx
    (.other "invalid transaction v, r, s values") rfl rfl
  rw [h]
  exact ⟨rfl, rfl, rfl, by simp⟩

/-- C5, amended. When the lookup succeeds with a transaction whose sender cannot be recovered,
`TraceCall` returns the error of `toCallArg` (non-nil) together with the transaction and a nil
trace result, and issues no `debug_traceCall` request. -/
theorem TraceCall_unusable (env : Env) (client : Client) (txHash : Hash) (opt : String)
    (t : Transaction) (e : Err)
    (hl : env.TransactionByHash txHash = (some t, none))
    (hs : env.Sender client.NetworkId t = .error e) :
    (toCallArg env.Sender t client.NetworkId).2 = some e ∧
    (TraceCall env client txHash opt).1.err = some e ∧
    (TraceCall env client txHash opt).1.tx = some t ∧
    (TraceCall env client txHash opt).1.traceResult = none ∧
    callsOf (TraceCall env client txHash opt).2 = [] := by
  rw [TraceCall_of_senderError env client txHash opt t e hl hs, toCallArg_error _ _ _ _ hs]
  exact ⟨rfl, rfl, rfl, rfl, rfl⟩

/-- Witness of the amended C5 at the hash `0xD`. -/
theorem TraceCall_unusable_witness :
    envTimeout.TransactionByHash 0xD = (some unsignedTx, none) ∧
    envTimeout.Sender sampleClient.NetworkId unsignedTx
      = .error (.other "invalid transaction v, r, s values") ∧
    (toCallArg envTimeout.Sender unsignedTx sampleClient.NetworkId).2
      = some (.other "invalid transaction v, r, s values") ∧
    (TraceCall envTimeout sampleClient 0xD "pending").1.err
      = some (.other "invalid transaction v, r, s values") ∧
    (TraceCall envTimeout sampleClient 0xD "pending").1.tx = some unsignedTx ∧
    (TraceCall envTimeout sampleClient 0xD "pending").1.traceResult = none ∧
    callsOf (TraceCall envTimeout sampleClient 0xD "pending").2 = [] :=
  ⟨rfl, rfl, TraceCall_unusable envTimeout sampleClient 0xD "pending" unsignedTx
    (.other "invalid transaction v, r, s values") rfl rfl⟩


/-- C7, counterexample. The remote call for `0xB` succeeds with JSON null, which has the shape
of no `TraceResult`; `TraceCall` returns a nil error, with the zero `TraceResult`. -/
theorem TraceCall_null_response_no_error :
    envNull.TransactionByHash 0xB = (some sampleTx, none) ∧
    toCallArg envNull.Sender sampleTx sampleClient.NetworkId = (some sampleArg, none) ∧
    envNull.CallContext "debug_traceCall" (traceParams sampleArg "latest") = .ok .null ∧
    (∀ t : TraceResult, carries .null t = false) ∧
    (TraceCall envNull sampleClient 0xB "latest").1.err = none ∧
    (TraceCall envNull sampleClient 0xB "latest").1.traceResult = some TraceResult.zero :=
  ⟨rfl, rfl, rfl, fun t => by cases t; rfl, rfl, rfl⟩

/-- C7, amended. When the lookup succeeds and the argument set is built: if the remote call
fails with `e`, `TraceCall` returns exactly `e` with a nil trace result and decodes nothing; if
the remote call succeeds with `result`, `TraceCall` decodes `result` once and returns the error
of the decode together with a non-nil trace result, the struct as the decode left it. That error
is nil exactly when the decode meets no value of the wrong kind, and when `result` has the shape
of a `TraceResult` tree the error is nil and the trace result is that tree. -/
theorem TraceCall_remote_outcome (env : Env) (client : Client) (txHash : Hash) (opt : String)
    (t : Transaction) (arg : ArgMap)
    (hl : env.TransactionByHash txHash = (some t, none))
    (ha : toCallArg env.Sender t client.NetworkId = (some arg, none)) :
    match env.CallContext "debug_traceCall" (traceParams arg opt) with
    | .error e =>
      (TraceCall env client txHash opt).1.err = some e ∧
      (TraceCall env client txHash opt).1.traceResult = none ∧
      decodesOf (TraceCall env client txHash opt).2 = []
    | .ok result =>
      (TraceCall env client txHash opt).1.err = (Decode result).2 ∧
      (TraceCall env client txHash opt).1.traceResult = some (Decode result).1 ∧
      decodesOf (TraceCall env client txHash opt).2 = [result] ∧
      ((TraceCall env client txHash opt).1.err = none ↔ wrongKind result = false) ∧
      (∀ tr : TraceResult, carries result tr = true →
        (TraceCall env client txHash opt).1.err = none ∧
        (TraceCall env client txHash opt).1.traceResult = some tr) := by
  cases hc : env.CallContext "debug_traceCall" (traceParams arg opt) with
  | error e =>
    rw [TraceCall_of_callError env client txHash opt t arg e hl ha hc]
    exact ⟨rfl, rfl, rfl⟩
  | ok result =>
    rw [TraceCall_of_callOk env client txHash opt t arg result hl ha hc]
    refine ⟨rfl, rfl, rfl, Decode_err_none_iff result, ?_⟩
    intro tr htr
    have hd : Decode result = (tr, none) := by
      simp [Decode, decodeStruct_of_carries tr result htr]
    simp [hd]

/-- Witness of the amended C7 at the hash `0xB`: with a remote call that runs into its deadline,
with one that answers the encoding of `sampleTrace`, with one that answers a bare string, and
with one that answers a map holding values of the wrong kind. -/
theorem TraceCall_remote_outcome_witness :
    (envTimeout.TransactionByHash 0xB = (some sampleTx, none) ∧
      toCallArg envTimeout.Sender sampleTx sampleClient.NetworkId = (some sampleArg, none) ∧
      (TraceCall envTimeout sampleClient 0xB "latest").1.err
        = some (.other "context deadline exceeded") ∧
      (TraceCall envTimeout sampleClient 0xB "latest").1.traceResult = none ∧
      decodesOf (TraceCall envTimeout sampleClient 0xB "latest").2 = []) ∧
    (envOk.TransactionByHash 0xB = (some sampleTx, none) ∧
      toCallArg envOk.Sender sampleTx sampleClient.NetworkId = (some sampleArg, none) ∧
      carries (encode sampleTrace) sampleTrace = true ∧
      (TraceCall envOk sampleClient 0xB "latest").1.err = none ∧
      (TraceCall envOk sampleClient 0xB "latest").1.traceResult = some sampleTrace) ∧
    (envBadShape.TransactionByHash 0xB = (some sampleTx, none) ∧
      toCallArg envBadShape.Sender sampleTx sampleClient.NetworkId = (some sampleArg, none) ∧
      (TraceCall envBadShape sampleClient 0xB "latest").1.err = some (.other "expected a map") ∧
      (TraceCall envBadShape sampleClient 0xB "latest").1.traceResult = some TraceResult.zero ∧
      decodesOf (TraceCall envBadShape sampleClient 0xB "latest").2 = [.str "0x"] ∧
      ((TraceCall envBadShape sampleClient 0xB "latest").1.err = none ↔
        wrongKind (.str "0x") = false) ∧
      wrongKind (.str "0x") = true) ∧
    (envWrongField.TransactionByHash 0xB = (some sampleTx, none) ∧
      toCallArg envWrongField.Sender sampleTx sampleClient.NetworkId = (some sampleArg, none) ∧
      (TraceCall envWrongField sampleClient 0xB "latest").1.err
        = some (.other "expected a map; expected type 'string', got unconvertible type") ∧
      (TraceCall envWrongField sampleClient 0xB "latest").1.traceResult
        = some (.mk [TraceResult.zero] "" "" "" "" "" "" "0xbeef" "" "")) :=
  ⟨⟨rfl, rfl, TraceCall_remote_outcome envTimeout sampleClient 0xB "latest" sampleTx sampleArg
      rfl rfl⟩,
    ⟨rfl, rfl, by decide,
      (TraceCall_remote_outcome envOk sampleClient 0xB "latest" sampleTx sampleArg
        rfl rfl).2.2.2.2 sampleTrace (by decide)⟩,
    ⟨rfl, rfl,
      (TraceCall_remote_outcome envBadShape sampleClient 0xB "latest" sampleTx sampleArg
        rfl rfl).1,
      (TraceCall_remote_outcome envBadShape sampleClient 0xB "latest" sampleTx sampleArg
        rfl rfl).2.1,
      (TraceCall_remote_outcome envBadShape sampleClient 0xB "latest" sampleTx sampleArg
        rfl rfl).2.2.1,
      (TraceCall_remote_outcome envBadShape sampleClient 0xB "latest" sampleTx sampleArg
        rfl rfl).2.2.2.1, by decide⟩,
    ⟨rfl, rfl,
      (TraceCall_remote_outcome envWrongField sampleClient 0xB "latest" sampleTx sampleArg
        rfl rfl).1,
      (TraceCall_remote_outcome envWrongField sampleClient 0xB "latest" sampleTx sampleArg
        rfl rfl).2.1⟩⟩

/-- C8. When the lookup succeeds and the sender resolves, `TraceCall` issues exactly one remote
call: `debug_traceCall` with, in this order, the argument set that `toCallArg` builds from the
looked-up transaction and the cached `NetworkId`, the caller's `opt` unchanged, and the tracer
configuration with `Tracer` "callTracer" and `LogConfig` DisableStack, DisableStorage and Debug
all true. -/
theorem TraceCall_request (env : Env) (client : Client) (txHash : Hash) (opt : String)
    (t : Transaction) (sender : Address)
    (hl : env.TransactionByHash txHash = (some t, none))
    (hs : env.Sender client.NetworkId t = .ok sender) :
    ∃ arg, (toCallArg env.Sender t client.NetworkId).1 = some arg ∧
      callsOf (TraceCall env client txHash opt).2 =
        [("debug_traceCall",
          [.argSet arg, .str opt,
            .traceConfig
              { LogConfig := some { DisableStack := true, DisableStorage := true, Debug := true }
                Tracer := some "callTracer" }])] := by
  obtain ⟨arg, ha⟩ := toCallArg_ok env.Sender t client.NetworkId sender hs
  refine ⟨arg, by rw [ha], ?_⟩
  cases hc : env.CallContext "debug_traceCall" (traceParams arg opt) with
  | error e =>
    rw [TraceCall_of_callError env client txHash opt t arg e hl ha hc]
    rfl
  | ok result =>
    rw [TraceCall_of_callOk env client txHash opt t arg result hl ha hc]
    rfl

/-- Witness of C8 at the hash `0xB` and the mode "pending". -/
theorem TraceCall_request_witness :
    envOk.TransactionByHash 0xB = (some sampleTx, none) ∧
    envOk.Sender sampleClient.NetworkId sampleTx = .ok 0xF00 ∧
    ∃ arg, (toCallArg envOk.Sender sampleTx sampleClient.NetworkId).1 = some arg ∧
      callsOf (TraceCall envOk sampleClient 0xB "pending").2 =
        [("debug_traceCall",
          [.argSet arg, .str "pending",
            .traceConfig
              { LogConfig := some { DisableStack := true, DisableStorage := true, Debug := true }
                Tracer := some "callTracer" }])] :=
  ⟨rfl, rfl, TraceCall_request envOk sampleClient 0xB "pending" sampleTx 0xF00 rfl rfl⟩

/-! ## The worker and the dispatcher -/

/-- C2, the code at the failing input. On the feed [0xA, 0xB], where the lookup of `0xA`
reports NotFound and the lookup and the trace of `0xB` succeed, two records are logged: an
error-level record for `0xA`, carrying `ethereum.NotFound`, and the success record for `0xB`. -/
theorem feed_notFound_logs_error :
    envOk.TransactionByHash 0xA = (none, some Err.NotFound) ∧
    worker envOk sampleClient 0xA "latest"
      = [⟨.error, [.hash 0xA, .err (some Err.NotFound)]⟩] ∧
    allLogs envOk sampleClient (NewTxTraceHandler none "latest" [.txHash 0xA, .txHash 0xB])
      = [⟨.error, [.hash 0xA, .err (some Err.NotFound)]⟩,
         ⟨.info, [.hash 0xB, .str "0xf00", .str "0xbeef"]⟩] := by
  decide

theorem loop_running (opt : String) (events : List Event) :
    ∀ s : Dispatcher, s.returned = none →
      loop opt s events =
        { spawned := s.spawned ++ (identifiers events).map (fun h => (h, opt))
          logs := s.logs ++ loopRecords events
          returned := none } := by
  induction events with
  | nil =>
    intro s hs
    cases s
    simp_all [loop, identifiers, loopRecords]
  | cons e es ih =>
    intro s hs
    cases e <;> simp [loop, hs, step, ih, identifiers, loopRecords]

theorem identifiers_length (events : List Event) :
    (identifiers events).length = events.countP isTxHash := by
  induction events with
  | nil => rfl
  | cons e es ih => cases e <;> simp [identifiers, isTxHash, List.countP_cons, ih]

/-- C6. After a successful subscription and over every finite sequence of events, the loop has
started one worker per identifier event, in order, each holding the identifier of its event and
the caller's mode; idle timeouts and subscription errors start no worker and only log; and the
call has not returned. This involves no outcome of any worker. The call returns exactly when the
initial `EthSubscribe` fails, then with that error and without having started a worker. -/
theorem NewTxTraceHandler_dispatch (opt : String) (events : List Event) :
    (NewTxTraceHandler none opt events).returned = none ∧
    (NewTxTraceHandler none opt events).spawned = (identifiers events).map (fun h => (h, opt)) ∧
    (NewTxTraceHandler none opt events).spawned.length
      = events.countP isTxHash ∧
    (NewTxTraceHandler none opt events).logs = loopRecords events ∧
    (∀ (s : Dispatcher) (err : Option Err),
      (step opt s .timeout).spawned = s.spawned ∧
      (step opt s (.subscribeErr err)).spawned = s.spawned ∧
      (step opt s .timeout).logs = s.logs ++ [⟨.error, [.str "timeout"]⟩] ∧
      (step opt s (.subscribeErr err)).logs = s.logs ++ [⟨.error, [.err err]⟩]) ∧
    (∀ (s : Dispatcher) (e : Event), (step opt s e).returned = s.returned) ∧
    (∀ subscribeErr : Option Err,
      (NewTxTraceHandler subscribeErr opt events).returned = subscribeErr) ∧
    (∀ err : Err,
      NewTxTraceHandler (some err) opt events
        = { spawned := [], logs := [], returned := some err }) := by
  have h := loop_running opt events { spawned := [], logs := [], returned := none } rfl
  refine ⟨?_, ?_, ?_, ?_, ?_, ?_, ?_, ?_⟩
  · simp [NewTxTraceHandler, h]
  · simp [NewTxTraceHandler, h]
  · simp [NewTxTraceHandler, h, identifiers_length]
  · simp [NewTxTraceHandler, h]
  · intro s err
    exact ⟨rfl, rfl, rfl, rfl⟩
  · intro s e
    cases e <;> rfl
  · intro subscribeErr
    cases subscribeErr with
    | none => simp [NewTxTraceHandler, h]
    | some err => rfl
  · intro err
    rfl


/-- C10, counterexample. The lookup of `0xC` fails with an error that is not NotFound: the
worker emits two failure records, the one logged inside `TraceCall` and the worker's own, both
carrying the same error. -/
theorem worker_lookupError_two_failures :
    envOk.TransactionByHash 0xC = (none, some (.other "connection reset")) ∧
    worker envOk sampleClient 0xC "latest"
      = [⟨.error, [.str "TransactionByHash: ", .err (some (.other "connection reset"))]⟩,
         ⟨.error, [.hash 0xC, .err (some (.other "connection reset"))]⟩] ∧
    (failures (worker envOk sampleClient 0xC "latest")).length = 2 := by
  decide

/-- The outcomes of `TraceCall`, by the step at which it returns. -/
theorem TraceCall_cases (env : Env) (client : Client) (txHash : Hash) (opt : String) :
    (∃ tx e, e ≠ Err.NotFound ∧ env.TransactionByHash txHash = (tx, some e) ∧
      TraceCall env client txHash opt =
        (⟨tx, none, some e⟩,
          [.lookup txHash, .log ⟨.error, [.str "TransactionByHash: ", .err (some e)]⟩])) ∨
    (((env.TransactionByHash txHash).2 = none ∨
        (env.TransactionByHash txHash).2 = some Err.NotFound) ∧
      ((∃ err, TraceCall env client txHash opt = (⟨none, none, err⟩, [.lookup txHash])) ∨
       (∃ t e, TraceCall env client txHash opt = (⟨some t, none, some e⟩, [.lookup txHash])) ∨
       (∃ t e ps, TraceCall env client txHash opt =
          (⟨some t, none, some e⟩, [.lookup txHash, .call "debug_traceCall" ps])) ∨
       (∃ t ps result, TraceCall env client txHash opt =
          (⟨some t, some (Decode result).1, (Decode result).2⟩,
            [.lookup txHash, .call "debug_traceCall" ps, .decode result])))) := by
  rcases hl : env.TransactionByHash txHash with ⟨tx, err⟩
  by_cases hf : err ≠ none ∧ err ≠ some Err.NotFound
  · left
    obtain ⟨e, rfl⟩ := Option.ne_none_iff_exists'.mp hf.1
    exact ⟨tx, e, fun h => hf.2 (by rw [h]), rfl,
      by simp [TraceCall, hl, hf.2]⟩
  · right
    have hor : err = none ∨ err = some Err.NotFound := by
      by_cases h1 : err = none
      · exact Or.inl h1
      · by_cases h2 : err = some Err.NotFound
        · exact Or.inr h2
        · exact absurd ⟨h1, h2⟩ hf
    refine ⟨hor, ?_⟩
    cases tx with
    | none =>
      left
      exact ⟨err, by simp [TraceCall, hl, hf]⟩
    | some t =>
      right
      cases hs : env.Sender client.NetworkId t with
      | error e =>
        left
        exact ⟨t, e, by simp [TraceCall, hl, hf, toCallArg_error _ _ _ _ hs]⟩
      | ok sender =>
        right
        obtain ⟨arg, ha⟩ := toCallArg_ok env.Sender t client.NetworkId sender hs
        cases hc : env.CallContext "debug_traceCall" (traceParams arg opt) with
        | error e =>
          left
          exact ⟨t, e, traceParams arg opt, by simp [TraceCall, hl, hf, ha, hc]⟩
        | ok result =>
          right
          exact ⟨t, traceParams arg opt, result, by simp [TraceCall, hl, hf, ha, hc]⟩


/-- C10, amended. For every identifier and every outcome of the lookup, the argument
construction, the remote call and the decode, every record the worker emits is a failure record
or a success record, at most two in all and at most one success record. The failure records are
the one that `TraceCall` logs itself, which it does exactly when the lookup fails with an error
other than NotFound and which carries that error, followed by the worker's own, which is
emitted exactly when `TraceCall` returns a non-nil error and carries the identifier and that
error. So when the lookup fails with an error other than NotFound the worker emits exactly two
records, both failure records carrying the lookup's error, the second with the identifier, and
two failure records are emitted in that case only. The success record is emitted exactly when
`TraceCall` returns a non-nil transaction and a non-nil trace result and carries the identifier
and the `From` and `To` of that trace. When `TraceCall` returns a nil error the worker emits no
failure record, and when `TraceCall` returns without a decode step its trace result is nil. -/
theorem worker_records (env : Env) (client : Client) (txHash : Hash) (opt : String) :
    (worker env client txHash opt).length ≤ 2 ∧
    (successes (worker env client txHash opt)).length ≤ 1 ∧
    (∀ l ∈ successes (worker env client txHash opt),
      ∃ tr, (TraceCall env client txHash opt).1.traceResult = some tr ∧
        l = ⟨.info, [.hash txHash, .str tr.From, .str tr.To]⟩) ∧
    ((failures (worker env client txHash opt)).length = 2 ↔
      ((env.TransactionByHash txHash).2 ≠ none ∧
        (env.TransactionByHash txHash).2 ≠ some Err.NotFound)) ∧
    logsOf (TraceCall env client txHash opt).2 =
      (if (env.TransactionByHash txHash).2 ≠ none ∧
          (env.TransactionByHash txHash).2 ≠ some Err.NotFound
        then [⟨.error, [.str "TransactionByHash: ", .err (env.TransactionByHash txHash).2]⟩]
        else []) ∧
    ((TraceCall env client txHash opt).1.err = none →
      failures (worker env client txHash opt) = []) ∧
    (decodesOf (TraceCall env client txHash opt).2 = [] →
      (TraceCall env client txHash opt).1.traceResult = none) ∧
    worker env client txHash opt =
      failures (worker env client txHash opt) ++ successes (worker env client txHash opt) ∧
    failures (worker env client txHash opt) =
      logsOf (TraceCall env client txHash opt).2 ++
        (if (TraceCall env client txHash opt).1.err ≠ none
          then [⟨.error, [.hash txHash, .err (TraceCall env client txHash opt).1.err]⟩]
          else []) ∧
    successes (worker env client txHash opt) =
      (match (TraceCall env client txHash opt).1.tx,
          (TraceCall env client txHash opt).1.traceResult with
        | some _, some tr => [⟨.info, [.hash txHash, .str tr.From, .str tr.To]⟩]
        | _, _ => []) ∧
    (((env.TransactionByHash txHash).2 ≠ none ∧
        (env.TransactionByHash txHash).2 ≠ some Err.NotFound) →
      (TraceCall env client txHash opt).1.err = (env.TransactionByHash txHash).2 ∧
      worker env client txHash opt =
        [⟨.error, [.str "TransactionByHash: ", .err (env.TransactionByHash txHash).2]⟩,
         ⟨.error, [.hash txHash, .err (env.TransactionByHash txHash).2]⟩]) := by
  rcases TraceCall_cases env client txHash opt with
    ⟨tx, e, hne, hl, h⟩ | ⟨hor, ⟨err, h⟩ | ⟨t, e, h⟩ | ⟨t, e, ps, h⟩ | ⟨t, ps, result, h⟩⟩
  · cases tx <;>
      simp [worker, h, hl, hne, logsOf, decodesOf, failures, successes]
  · have hnf : ¬ ((env.TransactionByHash txHash).2 ≠ none ∧
        (env.TransactionByHash txHash).2 ≠ some Err.NotFound) := by
      rcases hor with h1 | h1 <;> simp [h1]
    cases err <;>
      simp [worker, h, hnf, logsOf, decodesOf, failures, successes]
  · have hnf : ¬ ((env.TransactionByHash txHash).2 ≠ none ∧
        (env.TransactionByHash txHash).2 ≠ some Err.NotFound) := by
      rcases hor with h1 | h1 <;> simp [h1]
    simp [worker, h, hnf, logsOf, decodesOf, failures, successes]
  · have hnf : ¬ ((env.TransactionByHash txHash).2 ≠ none ∧
        (env.TransactionByHash txHash).2 ≠ some Err.NotFound) := by
      rcases hor with h1 | h1 <;> simp [h1]
    simp [worker, h, hnf, logsOf, decodesOf, failures, successes]
  · have hnf : ¬ ((env.TransactionByHash txHash).2 ≠ none ∧
        (env.TransactionByHash txHash).2 ≠ some Err.NotFound) := by
      rcases hor with h1 | h1 <;> simp [h1]
    cases hd : (Decode result).2 <;>
      simp [worker, h, hd, hnf, logsOf, decodesOf, failures, successes]

/-- Witness of the amended C10: at the hash `0xB` with a remote call that runs into its
deadline, one failure record with the identifier and the error, no decode step and a nil trace
result; at `0xB` with a remote call that succeeds, a nil error, no failure record and the
success record; at `0xC`, whose lookup fails, the two failure records. -/
theorem worker_records_witness :
    decodesOf (TraceCall envTimeout sampleClient 0xB "latest").2 = [] ∧
    (TraceCall envTimeout sampleClient 0xB "latest").1.traceResult = none ∧
    (worker envTimeout sampleClient 0xB "latest").length ≤ 2 ∧
    (successes (worker envTimeout sampleClient 0xB "latest")).length ≤ 1 ∧
    worker envTimeout sampleClient 0xB "latest"
      = [⟨.error, [.hash 0xB, .err (some (.other "context deadline exceeded"))]⟩] ∧
    (TraceCall envOk sampleClient 0xB "latest").1.err = none ∧
    failures (worker envOk sampleClient 0xB "latest") = [] ∧
    worker envOk sampleClient 0xB "latest"
      = [⟨.info, [.hash 0xB, .str "0xf00", .str "0xbeef"]⟩] ∧
    ((envOk.TransactionByHash 0xC).2 ≠ none ∧
      (envOk.TransactionByHash 0xC).2 ≠ some Err.NotFound) ∧
    (TraceCall envOk sampleClient 0xC "latest").1.err = some (.other "connection reset") ∧
    worker envOk sampleClient 0xC "latest"
      = [⟨.error, [.str "TransactionByHash: ", .err (some (.other "connection reset"))]⟩,
         ⟨.error, [.hash 0xC, .err (some (.other "connection reset"))]⟩] :=
  have h := worker_records envTimeout sampleClient 0xB "latest"
  have h2 := (worker_records envOk sampleClient 0xC "latest").2.2.2.2.2.2.2.2.2.2 (by decide)
  ⟨rfl, h.2.2.2.2.2.2.1 rfl, h.1, h.2.1, by decide, rfl,
    (worker_records envOk sampleClient 0xB "latest").2.2.2.2.2.1 rfl, by decide, by decide,
    h2.1, h2.2⟩

end Eth
